import Mathlib

/-!
Verification of the zotcraft synchronization engine.

The definitions below are a shallow embedding of the TypeScript sources:

* `src/lib/zotero.ts`  — pure helpers `formatAuthors`, `extractYear` and the
  source-client data shapes;
* `src/lib/craft.ts`   — `checkItemExists` (duplicate lookup) and the step-1
  request body of `createCollectionItem`;
* `src/app/api/sync-now/route.ts` — `formatItemType`, the `setProp` property
  mapper, the tag-mapping block, the markdown template, and the per-item
  orchestrator loop (`stepItem` / `runItems`) that produces the progress
  event stream.

JavaScript strings are modelled as Lean `String`, JS numbers appearing in
the property map as `Int`, falsy-string defaulting (`a || b`) as `jsOr`,
thrown exceptions as oracle functions giving the exception message, and the
network destination as an explicit `World` state threaded through the loop.
The JavaScript string methods trim, toLowerCase, split and includes are
modelled character-listwise (`jsTrim`, `jsToLower`, `splitOnChar`,
`strContainsChar`) so that every definition evaluates inside the kernel;
they agree with the JS methods on the ASCII data this system handles.
-/

/-- Models the JavaScript idiom `a || b` for an optionally-present string:
`b` is used when `a` is `undefined` or the empty string (both falsy). -/
def jsOr (a : Option String) (b : String) : String :=
  match a with
  | some s => if s = "" then b else s
  | none => b

/-- Models `a || []` for an optionally-present list. -/
def jsOrList {α : Type} (a : Option (List α)) : List α :=
  match a with
  | some l => l
  | none => []

/-- Models the JavaScript string method `trim()`: drops leading and
trailing whitespace. -/
def jsTrim (s : String) : String :=
  String.mk (((s.data.dropWhile (fun c => c.isWhitespace)).reverse.dropWhile
    (fun c => c.isWhitespace)).reverse)

/-- Models the JavaScript string method `toLowerCase()` on ASCII data. -/
def jsToLower (s : String) : String :=
  String.mk (s.data.map Char.toLower)

/-- Splits a character list at every occurrence of the separator; helper
for `splitOnChar`. -/
def splitOnCharAux (sep : Char) : List Char → List Char → List String
  | [], acc => [String.mk acc.reverse]
  | c :: cs, acc =>
    if c == sep then String.mk acc.reverse :: splitOnCharAux sep cs []
    else splitOnCharAux sep cs (c :: acc)

/-- Models the JavaScript `split(sep)` for a one-character separator. -/
def splitOnChar (sep : Char) (s : String) : List String :=
  splitOnCharAux sep s.data []

/-- Models the JavaScript `includes(c)` for a one-character needle. -/
def strContainsChar (s : String) (c : Char) : Bool :=
  s.data.contains c

/-- Value of the longest decimal-digit run at the head of the character
list; `none` when there is no leading digit. Helper for `jsParseInt`. -/
def digitsVal (cs : List Char) : Option Nat :=
  let ds := cs.takeWhile (fun c => c.isDigit)
  if ds.isEmpty then none
  else some (ds.foldl (fun a c => a * 10 + (c.toNat - 48)) 0)

/-- Models JavaScript `parseInt(s, 10)`: skip leading whitespace, read an
optional sign, then the longest digit run; NaN (here `none`) when no digit
follows. -/
def jsParseInt (s : String) : Option Int :=
  match s.data.dropWhile (fun c => c.isWhitespace) with
  | '-' :: rest => (digitsVal rest).map (fun n => -(n : Int))
  | '+' :: rest => (digitsVal rest).map (fun n => (n : Int))
  | rest => (digitsVal rest).map (fun n => (n : Int))

/-- Four leading characters when they are all digits, as a string. Helper
for `extractYear`. -/
def fourDigitAt (cs : List Char) : Option String :=
  match cs with
  | a :: b :: c :: d :: _ =>
      if a.isDigit && b.isDigit && c.isDigit && d.isDigit then
        some (String.mk [a, b, c, d])
      else none
  | _ => none

/-- First four-consecutive-digit run in the character list, scanning left
to right; models the first match of the regex `/\d{4}/`. -/
def extractYearAux : List Char → Option String
  | [] => none
  | c :: cs =>
    match fourDigitAt (c :: cs) with
    | some s => some s
    | none => extractYearAux cs

/-- `ZoteroClient.extractYear` from `src/lib/zotero.ts`: empty result for a
missing or empty date string, else the first 4-digit run, else the raw
date string unchanged. -/
def extractYear (dateString : Option String) : String :=
  match dateString with
  | none => ""
  | some s =>
    if s = "" then ""
    else
      match extractYearAux s.data with
      | some y => y
      | none => s

/-- One entry of the `creators` array of a Zotero item. -/
structure Creator where
  creatorType : Option String := none
  firstName : Option String := none
  lastName : Option String := none
  name : Option String := none
deriving DecidableEq

/-- Display name of one creator: the single full `name` when present and
nonempty, else the trimmed concatenation of given and family names, as in
`c.name || (c.firstName + space + c.lastName).trim()`. -/
def creatorDisplay (c : Creator) : String :=
  jsOr c.name (jsTrim (jsOr c.firstName "" ++ " " ++ jsOr c.lastName ""))

/-- `ZoteroClient.formatAuthors` from `src/lib/zotero.ts`: the fixed
placeholder for a missing or empty creators array, else display names
joined with a comma-space separator. -/
def formatAuthors (creators : Option (List Creator)) : String :=
  match creators with
  | none => "Unknown Author"
  | some cs =>
    if cs.isEmpty then "Unknown Author"
    else String.intercalate ", " (cs.map creatorDisplay)

/-- Inserts a space before every ASCII uppercase letter; models
`replace(/([A-Z])/g, quoted-space-dollar-one)` in `formatItemType`. -/
def spaceBeforeCaps : List Char → List Char
  | [] => []
  | c :: rest =>
    if c.isUpper then ' ' :: c :: spaceBeforeCaps rest
    else c :: spaceBeforeCaps rest

/-- Uppercases the first character; models `replace(/^./, toUpperCase)`. -/
def upcaseFirst : List Char → List Char
  | [] => []
  | c :: rest => c.toUpper :: rest

/-- `formatItemType` from `src/app/api/sync-now/route.ts`: empty input maps
to the empty string; otherwise split at capitals, capitalize the first
character and trim. -/
def formatItemType (type : String) : String :=
  if type = "" then ""
  else jsTrim (String.mk (upcaseFirst (spaceBeforeCaps type.data)))

/-- Replaces every maximal whitespace run by one underscore; the flag
records whether the scan is inside a whitespace run. Helper for
`collapseWsAux`. -/
def collapseWsGo : Bool → List Char → List Char
  | _, [] => []
  | inRun, c :: cs =>
    if c.isWhitespace then
      if inRun then collapseWsGo true cs
      else '_' :: collapseWsGo true cs
    else c :: collapseWsGo false cs

/-- Replaces every maximal whitespace run by one underscore; models
`replace(/\s+/g, underscore)` used on tag names. -/
def collapseWsAux (cs : List Char) : List Char :=
  collapseWsGo false cs

/-- Tag rendering of the orchestrator: whitespace runs become underscores
and a hash mark is prefixed. -/
def formatTag (t : String) : String :=
  "#" ++ String.mk (collapseWsAux t.data)

/-- Removes the first occurrence of a hash mark anywhere in the list;
models the JavaScript `t.replace(quoted-hash, empty)` used when matching
tags against schema options. -/
def replaceFirstHashAux : List Char → List Char
  | [] => []
  | c :: cs => if c == '#' then cs else c :: replaceFirstHashAux cs

/-- String form of `replaceFirstHashAux`. -/
def replaceFirstHash (s : String) : String :=
  String.mk (replaceFirstHashAux s.data)

/-- One tag object of a Zotero item, as in `{ tag: string }`. -/
structure ZTag where
  tag : String
deriving DecidableEq

/-- The `data` payload of a Zotero item, restricted to the attributes the
synchronization pass reads. Every field may be absent, as in the raw JSON. -/
structure ZItemData where
  title : Option String := none
  itemType : Option String := none
  creators : Option (List Creator) := none
  date : Option String := none
  dateAdded : Option String := none
  publicationTitle : Option String := none
  url : Option String := none
  DOI : Option String := none
  abstractNote : Option String := none
  tags : Option (List ZTag) := none
deriving DecidableEq

/-- Title used by the orchestrator for one item:
`item.data.title || Untitled`. -/
def jsTitle (d : ZItemData) : String :=
  jsOr d.title "Untitled"

/-- One destination item as returned by the collection-items listing; the
`title` attribute may be missing, matching the optional chaining
`item.title?.trim()` in `checkItemExists`. -/
structure FetchedItem where
  title : Option String := none
deriving DecidableEq

/-- One block of the parent document as returned by the document fetch in
`checkItemExists`; the `markdown` attribute may be missing. -/
structure FetchedBlock where
  type : String := ""
  markdown : Option String := none
deriving DecidableEq

/-- Collection branch of `CraftClient.checkItemExists` in
`src/lib/craft.ts`: a failed fetch (`none`) reports not-found (fail-open);
otherwise some listed item must have a title whose trim equals the trim of
the searched title. A missing item title never matches, as
`undefined === string` is false. -/
def checkItemExistsColl (fetched : Option (List FetchedItem)) (title : String) : Bool :=
  match fetched with
  | none => false
  | some items =>
    items.any (fun it =>
      match it.title with
      | some t => jsTrim t == jsTrim title
      | none => false)

/-- Parent-document branch of `CraftClient.checkItemExists`: among the
fetched blocks, a page-type block whose trimmed markdown equals the
trimmed title must exist; a failed fetch reports not-found. -/
def checkItemExistsDoc (fetched : Option (List FetchedBlock)) (title : String) : Bool :=
  match fetched with
  | none => false
  | some blocks =>
    blocks.any (fun b =>
      b.type == "page" &&
        (match b.markdown with
         | some m => jsTrim m == jsTrim title
         | none => false))

/-- Typed value stored in the Craft property map: JS string, number, or
array of strings. -/
inductive PropValue where
  | str (s : String)
  | num (n : Int)
  | strList (xs : List String)
deriving DecidableEq

/-- The property map `properties` built per record: association list from
Craft field key to value, with JS-object overwrite semantics via
`objSet`. -/
abbrev PropMap := List (String × PropValue)

/-- JS object assignment `obj[k] = v`: replaces the binding of `k` in
place when present, else appends it. -/
def objSet (m : PropMap) (k : String) (v : PropValue) : PropMap :=
  match m with
  | [] => [(k, v)]
  | (k₀, v₀) :: rest =>
    if k₀ == k then (k₀, v) :: rest
    else (k₀, v₀) :: objSet rest k v

/-- JS object read `obj[k]`. -/
def objLookup (m : PropMap) (k : String) : Option PropValue :=
  match m with
  | [] => none
  | (k₀, v₀) :: rest => if k₀ == k then some v₀ else objLookup rest k

/-- One field descriptor of the destination schema map built by the
orchestrator: `schemaMap[name] = { key, type, options }`. -/
structure FieldSchema where
  key : String
  type : String
  options : Option (List String) := none
deriving DecidableEq

/-- The schema map `schemaMap`: association list from field name to
descriptor. -/
abbrev SchemaMap := List (String × FieldSchema)

/-- Read `schemaMap[fieldName]`. -/
def lookupField (sm : SchemaMap) (fieldName : String) : Option FieldSchema :=
  match sm with
  | [] => none
  | (n, fs) :: rest => if n == fieldName then some fs else lookupField rest fieldName

/-- The `setProp` helper of `src/app/api/sync-now/route.ts` (lines
120-187) for the string-valued call sites it has: returns early when the
field is absent from the schema or the value is falsy, then dispatches on
the declared type. The number branch parses an integer and skips when the
parse fails; the select and multiSelect branch matches options
case-insensitively, with the single hard-coded remap of the reading-status
seed value to an option named Waiting; unmatched choice values are
dropped. -/
def setProp (sm : SchemaMap) (props : PropMap) (fieldName value : String) : PropMap :=
  match lookupField sm fieldName with
  | none => props
  | some fieldSchema =>
    if value = "" then props
    else
      let propKey := fieldSchema.key
      if fieldSchema.type == "number" then
        match jsParseInt value with
        | some num => objSet props propKey (.num num)
        | none => props
      else if fieldSchema.type == "url" then
        objSet props propKey (.str value)
      else if fieldSchema.type == "date" then
        objSet props propKey (.str value)
      else if fieldSchema.type == "select" || fieldSchema.type == "multiSelect" then
        let options := fieldSchema.options.getD []
        match options.find? (fun opt => jsToLower opt == jsToLower value) with
        | some validOption =>
          if fieldSchema.type == "select" then
            objSet props propKey (.str validOption)
          else
            objSet props propKey (.strList [validOption])
        | none =>
          if fieldName == "Reading status" && value == "To Read" then
            match options.find? (fun opt => jsToLower opt == "waiting") with
            | some waitingOpt => objSet props propKey (.str waitingOpt)
            | none => props
          else props
      else if fieldSchema.type == "text" || fieldSchema.type == "richText" then
        objSet props propKey (.str value)
      else if fieldSchema.type == "multiSelect" || fieldSchema.key == "tags" then
        if strContainsChar value ',' then
          objSet props propKey (.strList ((splitOnChar ',' value).map jsTrim))
        else
          objSet props propKey (.strList [value])
      else
        objSet props propKey (.str value)

/-- The Tags mapping block of the orchestrator (route lines 200-240):
text-typed tag fields get the comma-joined string through `setProp`;
multiSelect fields with a nonempty option set are closed vocabularies, so
tags are filtered by case-insensitive match after dropping the hash mark
and remapped to the canonical option casing, the property being set only
when at least one tag matched; a multiSelect field without options skips
the tags entirely; any other type receives the raw tag array. -/
def mapTags (sm : SchemaMap) (props : PropMap) (tags : List String) : PropMap :=
  match lookupField sm "Tags" with
  | none => props
  | some tagsSchema =>
    if tagsSchema.type == "text" || tagsSchema.type == "richText" then
      setProp sm props "Tags" (String.intercalate ", " tags)
    else
      let options := tagsSchema.options.getD []
      if tagsSchema.type == "multiSelect" && decide (0 < options.length) then
        let validTags := tags.filter (fun t =>
          options.any (fun opt => jsToLower opt == jsToLower (replaceFirstHash t)))
        if decide (0 < validTags.length) then
          objSet props tagsSchema.key (.strList (validTags.map (fun t =>
            (options.find? (fun opt =>
              jsToLower opt == jsToLower (replaceFirstHash t))).getD t)))
        else props
      else
        if tagsSchema.type == "multiSelect" then props
        else objSet props tagsSchema.key (.strList tags)

/-- Date part of `new Date(s).toISOString()` for the ISO-8601 UTC strings
the Zotero API returns in `dateAdded`: everything before the letter T. -/
def isoDatePart (s : String) : String :=
  (splitOnChar 'T' s).headD s

/-- The markdown note body built in step 5 of the orchestrator loop: the
exact template literal of route lines 247-270, with every interpolated
field computed by the helpers above. -/
def buildMarkdown (d : ZItemData) : String :=
  let creators := formatAuthors d.creators
  let year := extractYear d.date
  let journal := jsOr d.publicationTitle ""
  let url := jsOr d.url (jsOr d.DOI "")
  let dateAdded :=
    match d.dateAdded with
    | some s => if s = "" then "" else isoDatePart s
    | none => ""
  let formattedItemType := formatItemType (jsOr d.itemType "")
  let tagsString := String.intercalate " " ((jsOrList d.tags).map (fun t => formatTag t.tag))
  let abstract := jsOr d.abstractNote ""
  "\n**Authors:** " ++ creators ++
  "\n**Year:** " ++ year ++
  "\n**Journal:** " ++ journal ++
  "\n**Link:** " ++ url ++
  "\n**Date Added:** " ++ dateAdded ++
  "\n**Publication Type:** " ++ formattedItemType ++
  "\n**Tags:** " ++ tagsString ++
  "\n\n**Abstract:**\n" ++
  (if abstract = "" then "No abstract available." else abstract) ++
  "\n\n## Key Ideas\n- \n\n## Quotes\n- \n\n## Critique\n- \n\n## Related Work\n- \n"

/-- Status tag of one progress event. -/
inductive Status where
  | info
  | success
  | created
  | skipped
  | warning
  | error
deriving DecidableEq

/-- One progress event of the newline-delimited stream: title, status and
optional details, as in the `log` objects the route enqueues. -/
structure Ev where
  title : String
  status : Status
  details : Option String := none
deriving DecidableEq

/-- The Craft side of the sync configuration as the orchestrator sees it:
`none` stands for an undefined or empty (falsy) id. -/
structure CraftCfg where
  targetCollectionId : Option String := none
  parentDocumentId : Option String := none

/-- State of the Craft destination visible to this pass: titles of the
items of the target collection, and the blocks of the parent document. -/
structure World where
  collItems : List String := []
  docBlocks : List FetchedBlock := []
deriving DecidableEq

/-- Destination lookup performed by the per-item existence check, wiring
`checkItemExists` to the current destination state: the collection branch
when a target collection id is configured, else the parent-document
branch, else not-found. -/
def existsInWorld (cfg : CraftCfg) (w : World) (title : String) : Bool :=
  match cfg.targetCollectionId with
  | some _ =>
    checkItemExistsColl (some (w.collItems.map (fun t => { title := some t }))) title
  | none =>
    match cfg.parentDocumentId with
    | some _ => checkItemExistsDoc (some w.docBlocks) title
    | none => false

/-- Destination write of a successful create: `createCollectionItem` adds
an item with the given title to the target collection; `createNote` adds a
page-type block whose markdown is the title under the parent document. -/
def createInWorld (cfg : CraftCfg) (w : World) (title : String) : World :=
  match cfg.targetCollectionId with
  | some _ => { w with collItems := w.collItems ++ [title] }
  | none => { w with docBlocks := w.docBlocks ++ [{ type := "page", markdown := some title }] }

/-- The existence check of one loop iteration: a network failure of the
underlying fetch (oracle `rf` at this loop index) makes `checkItemExists`
fail open to false; otherwise the current destination state is
consulted. -/
def existsStep (cfg : CraftCfg) (rf : Nat → Bool) (idx : Nat) (w : World) (title : String) : Bool :=
  if rf idx then false else existsInWorld cfg w title

/-- One iteration body of the per-item loop (route lines 82-286), after
the cancellation check: on an existence hit one `skipped` event with the
fixed detail; otherwise the create step, whose thrown exception (oracle
`cf` giving the message at this loop index) is caught locally and becomes
one `error` event, while success becomes one `created` event and the
destination write. -/
def stepItem (cfg : CraftCfg) (cf : Nat → Option String) (rf : Nat → Bool)
    (idx : Nat) (w : World) (item : ZItemData) : Ev × World :=
  if existsStep cfg rf idx w (jsTitle item) then
    ({ title := jsTitle item, status := .skipped, details := some "Already exists in Craft" }, w)
  else
    match cf idx with
    | some msg => ({ title := jsTitle item, status := .error, details := some msg }, w)
    | none =>
      ({ title := jsTitle item, status := .created, details := none },
       createInWorld cfg w (jsTitle item))

/-- The per-item loop of the orchestrator: at each index the cancellation
signal is checked first and a set signal breaks the loop, emitting nothing
further; otherwise the iteration body runs and its single event is
appended to the stream. Returns the emitted per-record events in order and
the final destination state. -/
def runItems (cfg : CraftCfg) (sig : Nat → Bool) (cf : Nat → Option String)
    (rf : Nat → Bool) (idx : Nat) (w : World) : List ZItemData → List Ev × World
  | [] => ([], w)
  | item :: rest =>
    if sig idx then ([], w)
    else
      let r := stepItem cfg cf rf idx w item
      let r₂ := runItems cfg sig cf rf (idx + 1) r.2 rest
      (r.1 :: r₂.1, r₂.2)

/-- Step-1 request body of `CraftClient.createCollectionItem`
(`src/lib/craft.ts` lines 156-167): one element in `items` carrying the
title and a hard-coded empty `properties` object. -/
structure CollItemCreateEntry where
  title : String
  properties : PropMap
deriving DecidableEq

/-- The `items` wrapper of the step-1 request body. -/
structure CollItemCreateBody where
  items : List CollItemCreateEntry
deriving DecidableEq

/-- `createCollectionItem` as declared in `src/lib/craft.ts`: three
parameters only, and the step-1 body always sends `properties: {}`. -/
def createCollectionItemStep1Body (collectionId title contentMarkdown : String) : CollItemCreateBody :=
  { items := [{ title := title, properties := [] }] }

/-- The create call of orchestrator step 6 (route line 274): the computed
property map is passed as a fourth argument, which the three-parameter
declaration of `createCollectionItem` drops, so the transmitted body is
independent of it. -/
def createStepBody (collectionId itemTitle markdownBody : String) (properties : PropMap) : CollItemCreateBody :=
  createCollectionItemStep1Body collectionId itemTitle markdownBody

/-- Method names defined on `CraftClient` in `src/lib/craft.ts`. -/
def craftClientMethodNames : List String :=
  ["testConnection", "createNote", "getCollections", "checkItemExists", "createCollectionItem"]

/-- The schema-fetch step of the orchestrator (route lines 37-55), with
the JavaScript dynamic method dispatch made explicit: when a target
collection id is configured, the orchestrator calls
`craftClient.getCollectionSchema`, a method `CraftClient` does not define,
so the call throws a TypeError whose message the catch turns into one
warning event, leaving the schema map empty. -/
def fetchSchemaStep (targetCollectionId : Option String) : List Ev × SchemaMap :=
  match targetCollectionId with
  | none => ([], [])
  | some _ =>
    if craftClientMethodNames.contains "getCollectionSchema" then
      ([], [])
    else
      ([{ title := "System", status := .warning,
          details := some "Failed to fetch schema: craftClient.getCollectionSchema is not a function" }],
       [])

/-- A sync configuration in one of the two creation modes: a target
collection id is configured, or a parent document id is. -/
def cfgConfigured (cfg : CraftCfg) : Prop :=
  cfg.targetCollectionId.isSome ∨ cfg.parentDocumentId.isSome

/-- Boolean check that the first list is a leading segment of the second. -/
def isPrefixOfB : List Char → List Char → Bool
  | [], _ => true
  | _ :: _, [] => false
  | a :: as, b :: bs => a == b && isPrefixOfB as bs

/-- Boolean substring check on character lists. -/
def isInfixOfB (needle : List Char) : List Char → Bool
  | [] => isPrefixOfB needle []
  | c :: cs => isPrefixOfB needle (c :: cs) || isInfixOfB needle cs

/-- Boolean substring check on strings. -/
def containsStr (hay needle : String) : Bool :=
  isInfixOfB needle.data hay.data

/-- Remainder of the haystack after the first occurrence of the needle;
`none` when the needle does not occur. -/
def afterFirstMatch (needle : List Char) : List Char → Option (List Char)
  | [] => if isPrefixOfB needle [] then some [] else none
  | c :: cs =>
    if isPrefixOfB needle (c :: cs) then some (List.drop needle.length (c :: cs))
    else afterFirstMatch needle cs

/-- Checks that the given parts occur in the haystack in order, each after
the previous one. -/
def inOrderB : List Char → List String → Bool
  | _, [] => true
  | hay, p :: ps =>
    match afterFirstMatch p.data hay with
    | some rest => inOrderB rest ps
    | none => false


/-! ## Shared lemmas -/

/-- Unfolding equation of `stepItem`. -/
theorem stepItem_def (cfg : CraftCfg) (cf : Nat → Option String) (rf : Nat → Bool)
    (idx : Nat) (w : World) (item : ZItemData) :
    stepItem cfg cf rf idx w item =
      if existsStep cfg rf idx w (jsTitle item) then
        ({ title := jsTitle item, status := .skipped, details := some "Already exists in Craft" }, w)
      else
        match cf idx with
        | some msg => ({ title := jsTitle item, status := .error, details := some msg }, w)
        | none =>
          ({ title := jsTitle item, status := .created, details := none },
           createInWorld cfg w (jsTitle item)) := rfl

/-- Unfolding equation of `runItems` on the empty batch. -/
theorem runItems_nil (cfg : CraftCfg) (sig : Nat → Bool) (cf : Nat → Option String)
    (rf : Nat → Bool) (idx : Nat) (w : World) :
    runItems cfg sig cf rf idx w [] = ([], w) := rfl

/-- Unfolding equation of `runItems` on a batch with a head record. -/
theorem runItems_cons (cfg : CraftCfg) (sig : Nat → Bool) (cf : Nat → Option String)
    (rf : Nat → Bool) (idx : Nat) (w : World) (a : ZItemData) (rest : List ZItemData) :
    runItems cfg sig cf rf idx w (a :: rest) =
      if sig idx then ([], w)
      else
        ((stepItem cfg cf rf idx w a).1 ::
          (runItems cfg sig cf rf (idx + 1) (stepItem cfg cf rf idx w a).2 rest).1,
         (runItems cfg sig cf rf (idx + 1) (stepItem cfg cf rf idx w a).2 rest).2) := rfl

/-- A value written by `objSet` is the one read back at the same key. -/
theorem objLookup_objSet (m : PropMap) (k : String) (v : PropValue) :
    objLookup (objSet m k v) k = some v := by
  induction m with
  | nil => simp [objSet, objLookup]
  | cons kv rest ih =>
    obtain ⟨k₀, v₀⟩ := kv
    by_cases h : (k₀ == k) = true
    · simp [objSet, objLookup, h]
    · simp [objSet, objLookup, h, ih]

/-- A title just written by the destination create is found by the
existence check of the same pass. -/
theorem existsInWorld_create_self (cfg : CraftCfg) (w : World) (t : String)
    (h : cfgConfigured cfg) :
    existsInWorld cfg (createInWorld cfg w t) t = true := by
  cases htc : cfg.targetCollectionId with
  | some cid =>
    simp [existsInWorld, createInWorld, htc, checkItemExistsColl,
      List.map_append, List.any_append]
  | none =>
    cases hpd : cfg.parentDocumentId with
    | some pid =>
      simp [existsInWorld, createInWorld, htc, hpd, checkItemExistsDoc, List.any_append]
    | none =>
      exfalso
      rcases h with h1 | h1
      · rw [htc] at h1; exact absurd h1 (by simp)
      · rw [hpd] at h1; exact absurd h1 (by simp)

/-- The existence check stays positive when the destination only grows by
one more create. -/
theorem existsInWorld_mono_create (cfg : CraftCfg) (w : World) (s t : String)
    (h : existsInWorld cfg w t = true) :
    existsInWorld cfg (createInWorld cfg w s) t = true := by
  cases htc : cfg.targetCollectionId with
  | some cid =>
    simp only [existsInWorld, createInWorld, htc, checkItemExistsColl,
      List.map_append, List.any_append] at h ⊢
    simp [h]
  | none =>
    cases hpd : cfg.parentDocumentId with
    | some pid =>
      simp only [existsInWorld, createInWorld, htc, hpd, checkItemExistsDoc,
        List.any_append] at h ⊢
      simp [h]
    | none =>
      rw [existsInWorld, htc, hpd] at h
      cases h

/-- The existence check stays positive across one loop iteration. -/
theorem existsInWorld_stepItem (cfg : CraftCfg) (cf : Nat → Option String)
    (rf : Nat → Bool) (idx : Nat) (w : World) (it : ZItemData) (t : String)
    (h : existsInWorld cfg w t = true) :
    existsInWorld cfg (stepItem cfg cf rf idx w it).2 t = true := by
  unfold stepItem
  by_cases hex : existsStep cfg rf idx w (jsTitle it) = true
  · simp only [hex, if_true]
    exact h
  · simp only [Bool.not_eq_true] at hex
    simp only [hex, Bool.false_eq_true, if_false]
    cases cf idx with
    | some msg => exact h
    | none => exact existsInWorld_mono_create cfg w (jsTitle it) t h

/-- The existence check stays positive across the whole remaining loop. -/
theorem existsInWorld_runItems (cfg : CraftCfg) (sig : Nat → Bool)
    (cf : Nat → Option String) (rf : Nat → Bool) (t : String) :
    ∀ (items : List ZItemData) (idx : Nat) (w : World),
      existsInWorld cfg w t = true →
      existsInWorld cfg (runItems cfg sig cf rf idx w items).2 t = true := by
  intro items
  induction items with
  | nil => intro idx w h; exact h
  | cons a rest ih =>
    intro idx w h
    rw [runItems]
    by_cases hs : sig idx = true
    · simp only [hs, if_true]; exact h
    · simp only [Bool.not_eq_true] at hs
      simp only [hs, Bool.false_eq_true, if_false]
      exact ih (idx + 1) (stepItem cfg cf rf idx w a).2
        (existsInWorld_stepItem cfg cf rf idx w a t h)

/-- After an iteration whose create cannot throw, the title of the item
just processed is present in the destination. -/
theorem stepItem_self_present (cfg : CraftCfg) (cf : Nat → Option String)
    (rf : Nat → Bool) (idx : Nat) (w : World) (a : ZItemData)
    (hcfg : cfgConfigured cfg) (hcf : cf idx = none) :
    existsInWorld cfg (stepItem cfg cf rf idx w a).2 (jsTitle a) = true := by
  unfold stepItem
  by_cases hex : existsStep cfg rf idx w (jsTitle a) = true
  · simp only [hex, if_true]
    unfold existsStep at hex
    by_cases hrf : rf idx = true
    · rw [if_pos hrf] at hex; cases hex
    · rw [if_neg hrf] at hex; exact hex
  · simp only [Bool.not_eq_true] at hex
    simp only [hex, Bool.false_eq_true, if_false, hcf]
    exact existsInWorld_create_self cfg w (jsTitle a) hcfg

/-- After a pass with no cancellation and no create failures, every title
of the batch is present in the final destination state. -/
theorem runItems_presence (cfg : CraftCfg) (sig : Nat → Bool)
    (cf : Nat → Option String) (rf : Nat → Bool)
    (hcfg : cfgConfigured cfg)
    (hsig : ∀ j, sig j = false) (hcf : ∀ j, cf j = none) :
    ∀ (items : List ZItemData) (idx : Nat) (w : World),
      ∀ it ∈ items,
        existsInWorld cfg (runItems cfg sig cf rf idx w items).2 (jsTitle it) = true := by
  intro items
  induction items with
  | nil => intro idx w it hit; cases hit
  | cons a rest ih =>
    intro idx w it hit
    rw [runItems]
    simp only [hsig idx, Bool.false_eq_true, if_false]
    rcases List.mem_cons.1 hit with rfl | hmem
    · exact existsInWorld_runItems cfg sig cf rf (jsTitle it) rest (idx + 1) _
        (stepItem_self_present cfg cf rf idx w it hcfg (hcf idx))
    · exact ih (idx + 1) (stepItem cfg cf rf idx w a).2 it hmem

/-- A pass over a batch whose every title is already present, with no
cancellation and no read failures, reports every record as skipped and
leaves the destination untouched. -/
theorem runItems_all_skip (cfg : CraftCfg) (sig : Nat → Bool)
    (cf : Nat → Option String) (rf : Nat → Bool)
    (hsig : ∀ j, sig j = false) (hrf : ∀ j, rf j = false) :
    ∀ (items : List ZItemData) (idx : Nat) (w : World),
      (∀ it ∈ items, existsInWorld cfg w (jsTitle it) = true) →
      runItems cfg sig cf rf idx w items =
        (items.map (fun it =>
          { title := jsTitle it, status := .skipped, details := some "Already exists in Craft" }), w) := by
  intro items
  induction items with
  | nil => intro idx w _; rfl
  | cons a rest ih =>
    intro idx w hall
    rw [runItems]
    simp only [hsig idx, Bool.false_eq_true, if_false]
    have hex : existsStep cfg rf idx w (jsTitle a) = true := by
      unfold existsStep
      simp only [hrf idx, Bool.false_eq_true, if_false]
      exact hall a (List.mem_cons_self a rest)
    have hstep : stepItem cfg cf rf idx w a =
        ({ title := jsTitle a, status := .skipped, details := some "Already exists in Craft" }, w) := by
      unfold stepItem
      rw [if_pos hex]
    rw [hstep]
    have hrest := ih (idx + 1) w (fun it hit => hall it (List.mem_cons_of_mem a hit))
    rw [hrest]
    rfl

/-! ## C4 — the create request never carries the mapped properties -/

/-- C4: for every record created as a collection item, the step-1 create
request contains exactly one item, whose properties object is empty: the
orchestrator passes its computed property map as a fourth argument, but
`createCollectionItem` declares only three parameters and hard-codes empty
properties, so the mapped properties are never transmitted. -/
theorem createCollectionItem_drops_properties :
    ∀ (collectionId itemTitle markdownBody : String) (properties : PropMap),
      ((createStepBody collectionId itemTitle markdownBody properties).items.map
          (fun it => it.properties)) = [[]] ∧
      ((createStepBody collectionId itemTitle markdownBody properties).items.map
          (fun it => it.title)) = [itemTitle] :=
  fun _ _ _ _ => ⟨rfl, rfl⟩

/-! ## C5 — the schema fetch always fails and the schema map stays empty -/

/-- C5: whenever a destination collection id is configured, the
schema-fetch step fails, because `CraftClient` defines no
`getCollectionSchema` method: the call throws, the catch emits exactly one
warning event carrying the TypeError message, the schema map remains
empty, and with an empty schema map every `setProp` call and the tag
mapping drop their field, so the pass behaves as if no schema were
known. -/
theorem schema_fetch_always_fails :
    (∀ cid : String, fetchSchemaStep (some cid) =
      ([{ title := "System", status := .warning,
          details := some "Failed to fetch schema: craftClient.getCollectionSchema is not a function" }],
       [])) ∧
    (∀ (props : PropMap) (fieldName value : String), setProp [] props fieldName value = props) ∧
    (∀ (props : PropMap) (tags : List String), mapTags [] props tags = props) :=
  ⟨fun _ => rfl, fun _ _ _ => rfl, fun _ _ => rfl⟩

/-! ## C6 — number coercion of the year -/

/-- C6: with a number-typed Year field in the schema, mapping the year
string 2021 stores the integer 2021 under the key of that field, while
mapping any year string whose integer parse fails leaves the property map
unchanged, hence the field absent. -/
theorem year_number_coercion (sm : SchemaMap) (fs : FieldSchema) (props : PropMap)
    (h : lookupField sm "Year" = some fs) (ht : fs.type = "number") :
    objLookup (setProp sm props "Year" "2021") fs.key = some (.num 2021) ∧
    ∀ s : String, jsParseInt s = none → setProp sm props "Year" s = props := by
  constructor
  · have hp : jsParseInt "2021" = some 2021 := by decide
    simp only [setProp, h, ht, hp]
    norm_num
    exact objLookup_objSet props fs.key (.num 2021)
  · intro s hs
    by_cases hval : s = ""
    · simp [setProp, h, hval]
    · simp [setProp, h, ht, hval, hs]

/-- C6 witness: a concrete schema with a number-typed Year field, the year
2021 stored as an integer and the non-numeric year string left out. -/
theorem year_number_coercion_witness :
    objLookup (setProp [("Year", { key := "yearKey", type := "number" })] [] "Year" "2021") "yearKey" =
      some (.num 2021) ∧
    setProp [("Year", { key := "yearKey", type := "number" })] [] "Year" "n.d." = [] := by
  have h := year_number_coercion [("Year", { key := "yearKey", type := "number" })]
    { key := "yearKey", type := "number" } [] rfl rfl
  exact ⟨h.1, h.2 "n.d." (by decide)⟩

/-! ## C7 — reading-status remap to Waiting -/

/-- C7: for a single-choice Reading status field whose option set has an
option spelled Waiting in any casing but no case-insensitive match for the
seed value To Read, mapping the seed value stores that Waiting option in
its canonical casing, and the stored value is never the out-of-vocabulary
literal To Read. -/
theorem reading_status_remap (sm : SchemaMap) (fs : FieldSchema) (props : PropMap) (w : String)
    (h : lookupField sm "Reading status" = some fs)
    (ht : fs.type = "select")
    (hw : (fs.options.getD []).find? (fun opt => jsToLower opt == "waiting") = some w)
    (hnm : (fs.options.getD []).find? (fun opt => jsToLower opt == "to read") = none) :
    setProp sm props "Reading status" "To Read" = objSet props fs.key (.str w) ∧
    w ≠ "To Read" := by
  constructor
  · have hlow : jsToLower "To Read" = "to read" := by decide
    simp only [setProp, h, ht, hlow, hnm, hw]
    rw [if_neg (by decide), if_neg (by decide), if_neg (by decide), if_neg (by decide),
      if_pos (by decide), if_pos (by decide)]
  · intro hcontra
    have := List.find?_some hw
    rw [hcontra] at this
    exact absurd this (by decide)

/-- C7 witness: the documented option set Waiting, Next up, In progress,
Done with the seed value remapped to Waiting. -/
theorem reading_status_remap_witness :
    setProp
        [("Reading status",
          { key := "rsKey", type := "select",
            options := some ["Waiting", "Next up", "In progress", "Done"] })]
        [] "Reading status" "To Read" = objSet [] "rsKey" (.str "Waiting") ∧
    "Waiting" ≠ "To Read" :=
  reading_status_remap
    [("Reading status",
      { key := "rsKey", type := "select",
        options := some ["Waiting", "Next up", "In progress", "Done"] })]
    { key := "rsKey", type := "select",
      options := some ["Waiting", "Next up", "In progress", "Done"] }
    [] "Waiting" rfl rfl (by decide) (by decide)

/-! ## C8 — closed-vocabulary tag drop -/

/-- C8: the tag field of the orchestrator (tags rendered by `formatTag`,
so each begins with the hash marker) against a multiSelect Tags field with
a nonempty option set: removing the marker from a rendered tag yields
exactly the rendered tag body, only tags whose unmarked body matches an
option case-insensitively survive the filter, the property is set only
when at least one tag matched (each remapped to the canonical option
casing), and with no match the property map is left without an entry for
that field. -/
theorem tags_closed_vocabulary (sm : SchemaMap) (ts : FieldSchema) (opts : List String)
    (props : PropMap) (rawTags : List String)
    (h : lookupField sm "Tags" = some ts)
    (ht : ts.type = "multiSelect")
    (ho : ts.options = some opts) (hne : opts ≠ []) :
    (∀ r : String, replaceFirstHash (formatTag r) = String.mk (collapseWsAux r.data)) ∧
    (((rawTags.map formatTag).filter (fun t =>
        opts.any (fun opt => jsToLower opt == jsToLower (replaceFirstHash t)))) = [] →
      mapTags sm props (rawTags.map formatTag) = props) ∧
    (∀ valid : List String,
      ((rawTags.map formatTag).filter (fun t =>
        opts.any (fun opt => jsToLower opt == jsToLower (replaceFirstHash t)))) = valid →
      valid ≠ [] →
      mapTags sm props (rawTags.map formatTag) =
        objSet props ts.key (.strList (valid.map (fun t =>
          (opts.find? (fun opt => jsToLower opt == jsToLower (replaceFirstHash t))).getD t)))) := by
  have hlen : (0 < opts.length) := List.length_pos.2 hne
  have hcond : (("multiSelect" == "multiSelect") && decide (0 < opts.length)) = true := by
    simp [hlen]
  refine ⟨fun r => rfl, ?_, ?_⟩
  · intro hv
    simp only [mapTags, h, ht, ho, Option.getD_some]
    rw [if_neg (by decide), if_pos hcond, hv]
    simp
  · intro valid hv hvne
    have hvlen : (0 < valid.length) := List.length_pos.2 hvne
    simp only [mapTags, h, ht, ho, Option.getD_some]
    rw [if_neg (by decide), if_pos hcond, hv]
    rw [if_pos (by simp [hvlen])]

/-- C8 witness: the quantum-computing tag against the Physics or Biology
vocabulary leaves the property map empty, and a matching tag is stored in
canonical casing. -/
theorem tags_closed_vocabulary_witness :
    mapTags
      [("Tags",
        { key := "tagsKey", type := "multiSelect",
          options := some ["Physics", "Biology"] })] []
      (["quantum_computing"].map formatTag) = [] ∧
    mapTags
      [("Tags",
        { key := "tagsKey", type := "multiSelect",
          options := some ["Physics", "Biology"] })] []
      (["biology"].map formatTag) = objSet [] "tagsKey" (.strList ["Biology"]) := by
  have h₁ := tags_closed_vocabulary
    [("Tags", { key := "tagsKey", type := "multiSelect", options := some ["Physics", "Biology"] })]
    { key := "tagsKey", type := "multiSelect", options := some ["Physics", "Biology"] }
    ["Physics", "Biology"] [] ["quantum_computing"] rfl rfl rfl (by decide)
  have h₂ := tags_closed_vocabulary
    [("Tags", { key := "tagsKey", type := "multiSelect", options := some ["Physics", "Biology"] })]
    { key := "tagsKey", type := "multiSelect", options := some ["Physics", "Biology"] }
    ["Physics", "Biology"] [] ["biology"] rfl rfl rfl (by decide)
  refine ⟨h₁.2.1 (by decide), (h₂.2.2 ["#biology"] (by decide) (by decide)).trans (by decide)⟩

/-! ## C9 — title matching is exact after trimming -/

/-- C9: the existence check compares titles by exact string equality after
trimming on both sides: the collection branch holds exactly when a listed
item has a title whose trim equals the trim of the searched title, the
parent-document branch holds exactly when a page-type block has markdown
whose trim equals it, and concretely a destination item titled Foo with a
trailing space matches the record title Foo, which the loop therefore
skips rather than creating a duplicate. -/
theorem title_match_trim_exact :
    (∀ (items : List FetchedItem) (title : String),
        checkItemExistsColl (some items) title = true ↔
          ∃ it ∈ items, ∃ t, it.title = some t ∧ jsTrim t = jsTrim title) ∧
    (∀ (blocks : List FetchedBlock) (title : String),
        checkItemExistsDoc (some blocks) title = true ↔
          ∃ b ∈ blocks, b.type = "page" ∧ ∃ m, b.markdown = some m ∧ jsTrim m = jsTrim title) ∧
    checkItemExistsColl (some [{ title := some "Foo " }]) "Foo" = true ∧
    stepItem { targetCollectionId := some "col" } (fun _ => none) (fun _ => false) 0
        { collItems := ["Foo "] } { title := some "Foo" } =
      ({ title := "Foo", status := .skipped, details := some "Already exists in Craft" },
       { collItems := ["Foo "] }) := by
  refine ⟨?_, ?_, by decide, by decide⟩
  · intro items title
    simp only [checkItemExistsColl, List.any_eq_true]
    constructor
    · rintro ⟨it, hmem, hp⟩
      refine ⟨it, hmem, ?_⟩
      cases hT : it.title with
      | none => rw [hT] at hp; cases hp
      | some t => rw [hT] at hp; exact ⟨t, rfl, beq_iff_eq.1 hp⟩
    · rintro ⟨it, hmem, t, hT, htr⟩
      exact ⟨it, hmem, by rw [hT]; exact beq_iff_eq.2 htr⟩
  · intro blocks title
    simp only [checkItemExistsDoc, List.any_eq_true]
    constructor
    · rintro ⟨b, hmem, hp⟩
      rw [Bool.and_eq_true] at hp
      obtain ⟨hty, hmk⟩ := hp
      refine ⟨b, hmem, beq_iff_eq.1 hty, ?_⟩
      cases hM : b.markdown with
      | none => rw [hM] at hmk; cases hmk
      | some m => rw [hM] at hmk; exact ⟨m, rfl, beq_iff_eq.1 hmk⟩
    · rintro ⟨b, hmem, hty, m, hM, htr⟩
      refine ⟨b, hmem, ?_⟩
      rw [Bool.and_eq_true]
      exact ⟨beq_iff_eq.2 hty, by rw [hM]; exact beq_iff_eq.2 htr⟩

/-! ## C10 — end-to-end rendering of the scenario record -/

/-- C10: the scenario record (title Deep Learning, one creator named
A. Ng, date 2015-03, one tag machine learning, empty abstract) rendered by
the orchestrator yields a body containing the Authors, Year and Tags lines
with the expected values, the abstract placeholder, and the four scaffold
section headings in order; processed with no destination collection
configured, its progress event has status created. -/
theorem sync_end_to_end_scenario :
    containsStr (buildMarkdown
      { title := some "Deep Learning", creators := some [{ name := some "A. Ng" }],
        date := some "2015-03", tags := some [{ tag := "machine learning" }],
        abstractNote := some "" }) "**Authors:** A. Ng" = true ∧
    containsStr (buildMarkdown
      { title := some "Deep Learning", creators := some [{ name := some "A. Ng" }],
        date := some "2015-03", tags := some [{ tag := "machine learning" }],
        abstractNote := some "" }) "**Year:** 2015" = true ∧
    containsStr (buildMarkdown
      { title := some "Deep Learning", creators := some [{ name := some "A. Ng" }],
        date := some "2015-03", tags := some [{ tag := "machine learning" }],
        abstractNote := some "" }) "**Tags:** #machine_learning" = true ∧
    containsStr (buildMarkdown
      { title := some "Deep Learning", creators := some [{ name := some "A. Ng" }],
        date := some "2015-03", tags := some [{ tag := "machine learning" }],
        abstractNote := some "" }) "No abstract available." = true ∧
    inOrderB (buildMarkdown
      { title := some "Deep Learning", creators := some [{ name := some "A. Ng" }],
        date := some "2015-03", tags := some [{ tag := "machine learning" }],
        abstractNote := some "" }).data
      ["## Key Ideas", "## Quotes", "## Critique", "## Related Work"] = true ∧
    (runItems { parentDocumentId := some "doc1" } (fun _ => false) (fun _ => none)
        (fun _ => false) 0 { }
        [{ title := some "Deep Learning", creators := some [{ name := some "A. Ng" }],
           date := some "2015-03", tags := some [{ tag := "machine learning" }],
           abstractNote := some "" }]).1 =
      [{ title := "Deep Learning", status := .created, details := none }] := by
  decide

/-! ## C1 — per-item failure isolation -/

/-- In an iteration whose create does not throw, the emitted event is
never an error event. -/
theorem stepItem_no_error (cfg : CraftCfg) (cf : Nat → Option String) (rf : Nat → Bool)
    (idx : Nat) (w : World) (it : ZItemData) (hcf : cf idx = none) :
    (stepItem cfg cf rf idx w it).1.status ≠ Status.error := by
  unfold stepItem
  by_cases hex : existsStep cfg rf idx w (jsTitle it) = true
  · simp [hex]
  · simp only [Bool.not_eq_true] at hex
    simp [hex, hcf]

/-- C1: in a batch of three records where only the create of record 2
throws, the stream has exactly the three per-record events in original
order — whatever event record 1 produced, then one error event carrying
the title of record 2 and the exception message, then whatever event
record 3 produced — and the events of records 1 and 3 are not error
events, so the failure of one record never aborts the batch. -/
theorem sync_per_item_isolation (cfg : CraftCfg) (w : World) (a b c : ZItemData)
    (sig : Nat → Bool) (cf : Nat → Option String) (rf : Nat → Bool) (msg : String)
    (hsig : ∀ j, sig j = false)
    (hcf0 : cf 0 = none) (hcf1 : cf 1 = some msg) (hcf2 : cf 2 = none)
    (hex : existsStep cfg rf 1 (stepItem cfg cf rf 0 w a).2 (jsTitle b) = false) :
    (runItems cfg sig cf rf 0 w [a, b, c]).1 =
      [(stepItem cfg cf rf 0 w a).1,
       { title := jsTitle b, status := .error, details := some msg },
       (stepItem cfg cf rf 2 (stepItem cfg cf rf 0 w a).2 c).1] ∧
    (stepItem cfg cf rf 0 w a).1.status ≠ Status.error ∧
    (stepItem cfg cf rf 2 (stepItem cfg cf rf 0 w a).2 c).1.status ≠ Status.error := by
  have hstepb : stepItem cfg cf rf 1 (stepItem cfg cf rf 0 w a).2 b =
      ({ title := jsTitle b, status := .error, details := some msg },
       (stepItem cfg cf rf 0 w a).2) := by
    rw [stepItem_def, hex]
    simp only [Bool.false_eq_true, if_false, hcf1]
  refine ⟨?_, stepItem_no_error cfg cf rf 0 w a hcf0,
    stepItem_no_error cfg cf rf 2 _ c hcf2⟩
  simp only [runItems, hsig, Bool.false_eq_true, if_false, hstepb]

/-- C1 witness: three concrete records where the create of record 2
throws with the message boom. -/
theorem sync_per_item_isolation_witness :
    (runItems { targetCollectionId := some "col" } (fun _ => false)
        (fun j => if j = 1 then some "boom" else none) (fun _ => false) 0 { }
        [{ title := some "A" }, { title := some "B" }, { title := some "C" }]).1 =
      [{ title := "A", status := .created, details := none },
       { title := "B", status := .error, details := some "boom" },
       { title := "C", status := .created, details := none }] := by
  have h := sync_per_item_isolation { targetCollectionId := some "col" } { }
    { title := some "A" } { title := some "B" } { title := some "C" }
    (fun _ => false) (fun j => if j = 1 then some "boom" else none) (fun _ => false) "boom"
    (fun _ => rfl) rfl rfl rfl (by decide)
  exact h.1.trans (by decide)

/-! ## C2 — idempotence across passes -/

/-- C2: after a first pass with no cancellation and no create failures
over a batch, in either creation mode, a second pass over the same batch
against the unmodified destination — with no cancellation and no read
failures, whatever its create oracle — reports every record as skipped
with the fixed detail, and emits zero created events. -/
theorem sync_idempotent_second_pass (cfg : CraftCfg) (w₀ : World) (items : List ZItemData)
    (sig₁ : Nat → Bool) (cf₁ : Nat → Option String) (rf₁ : Nat → Bool)
    (sig₂ : Nat → Bool) (cf₂ : Nat → Option String) (rf₂ : Nat → Bool)
    (hcfg : cfgConfigured cfg)
    (hsig₁ : ∀ j, sig₁ j = false) (hcf₁ : ∀ j, cf₁ j = none)
    (hsig₂ : ∀ j, sig₂ j = false) (hrf₂ : ∀ j, rf₂ j = false) :
    (runItems cfg sig₂ cf₂ rf₂ 0 (runItems cfg sig₁ cf₁ rf₁ 0 w₀ items).2 items).1 =
      items.map (fun it =>
        { title := jsTitle it, status := .skipped, details := some "Already exists in Craft" }) ∧
    ((runItems cfg sig₂ cf₂ rf₂ 0 (runItems cfg sig₁ cf₁ rf₁ 0 w₀ items).2 items).1.filter
        (fun e => decide (e.status = Status.created))).length = 0 := by
  have hall : ∀ it ∈ items,
      existsInWorld cfg (runItems cfg sig₁ cf₁ rf₁ 0 w₀ items).2 (jsTitle it) = true :=
    fun it hit => runItems_presence cfg sig₁ cf₁ rf₁ hcfg hsig₁ hcf₁ items 0 w₀ it hit
  have h2 := runItems_all_skip cfg sig₂ cf₂ rf₂ hsig₂ hrf₂ items 0
    (runItems cfg sig₁ cf₁ rf₁ 0 w₀ items).2 hall
  have h1 : (runItems cfg sig₂ cf₂ rf₂ 0 (runItems cfg sig₁ cf₁ rf₁ 0 w₀ items).2 items).1 =
      items.map (fun it =>
        { title := jsTitle it, status := .skipped, details := some "Already exists in Craft" }) := by
    rw [h2]
  refine ⟨h1, ?_⟩
  rw [h1]
  simp only [List.length_eq_zero, List.filter_eq_nil_iff]
  intro e he
  obtain ⟨it, hit, rfl⟩ := List.mem_map.1 he
  simp

/-- C2 witness: a two-record batch in collection mode, created by the
first pass and fully skipped by the second. -/
theorem sync_idempotent_second_pass_witness :
    (runItems { targetCollectionId := some "col" } (fun _ => false) (fun _ => none)
        (fun _ => false) 0
        (runItems { targetCollectionId := some "col" } (fun _ => false) (fun _ => none)
          (fun _ => false) 0 { } [{ title := some "A" }, { title := some "B" }]).2
        [{ title := some "A" }, { title := some "B" }]).1 =
      [{ title := "A", status := .skipped, details := some "Already exists in Craft" },
       { title := "B", status := .skipped, details := some "Already exists in Craft" }] := by
  have h := sync_idempotent_second_pass { targetCollectionId := some "col" } { }
    [{ title := some "A" }, { title := some "B" }]
    (fun _ => false) (fun _ => none) (fun _ => false)
    (fun _ => false) (fun _ => none) (fun _ => false)
    (Or.inl rfl) (fun _ => rfl) (fun _ => rfl) (fun _ => rfl) (fun _ => rfl)
  exact h.1.trans (by decide)

/-! ## C3 — cancellation stops the loop without an abort event -/

/-- A cancelled loop behaves as the uncancelled loop over the records seen
before the signal was set: the signal set at absolute index `i`, and clear
before it, truncates the batch to its first `i - idx` remaining records. -/
theorem runItems_cancel_take (cfg : CraftCfg) (cf : Nat → Option String) (rf : Nat → Bool)
    (sig : Nat → Bool) (i : Nat)
    (hlt : ∀ j, j < i → sig j = false) (hset : sig i = true) :
    ∀ (items : List ZItemData) (idx : Nat) (w : World), idx ≤ i →
      runItems cfg sig cf rf idx w items =
        runItems cfg (fun _ => false) cf rf idx w (items.take (i - idx)) := by
  intro items
  induction items with
  | nil => intro idx w _; rw [List.take_nil, runItems_nil, runItems_nil]
  | cons a rest ih =>
    intro idx w hle
    rcases Nat.lt_or_ge idx i with hlt₂ | hge
    · have hs : sig idx = false := hlt idx hlt₂
      have h1 : i - idx = (i - (idx + 1)) + 1 := by omega
      rw [h1, List.take_succ_cons, runItems_cons, runItems_cons]
      simp only [hs, Bool.false_eq_true, if_false]
      rw [ih (idx + 1) (stepItem cfg cf rf idx w a).2 (by omega)]
    · have heq : idx = i := Nat.le_antisymm hle hge
      subst heq
      rw [Nat.sub_self, List.take_zero, runItems_nil, runItems_cons, if_pos hset]

/-- No event of the per-item loop carries the warning status. -/
theorem stepItem_no_warning (cfg : CraftCfg) (cf : Nat → Option String) (rf : Nat → Bool)
    (idx : Nat) (w : World) (it : ZItemData) :
    (stepItem cfg cf rf idx w it).1.status ≠ Status.warning := by
  unfold stepItem
  by_cases hex : existsStep cfg rf idx w (jsTitle it) = true
  · simp [hex]
  · simp only [Bool.not_eq_true] at hex
    simp only [hex, Bool.false_eq_true, if_false]
    cases cf idx <;> simp

/-- The per-item loop never emits a warning-status event. -/
theorem runItems_no_warning (cfg : CraftCfg) (sig : Nat → Bool)
    (cf : Nat → Option String) (rf : Nat → Bool) :
    ∀ (items : List ZItemData) (idx : Nat) (w : World),
      ∀ e ∈ (runItems cfg sig cf rf idx w items).1, e.status ≠ Status.warning := by
  intro items
  induction items with
  | nil => intro idx w e he; cases he
  | cons a rest ih =>
    intro idx w e he
    rw [runItems] at he
    by_cases hs : sig idx = true
    · rw [if_pos hs] at he
      cases he
    · rw [if_neg hs] at he
      rcases List.mem_cons.1 he with rfl | hm
      · exact stepItem_no_warning cfg cf rf idx w a
      · exact ih (idx + 1) (stepItem cfg cf rf idx w a).2 e hm

/-- C3 counterexample: with the cancellation signal set after record 1
completes and before record 2 starts, the emitted stream is exactly the
one event of record 1 and contains no warning-tagged event at all — the
claimed warning-tagged terminal abort event does not exist in the
stream. -/
theorem sync_cancel_counterexample :
    (runItems { targetCollectionId := some "col" } (fun j => decide (1 ≤ j)) (fun _ => none)
        (fun _ => false) 0 { } [{ title := some "A" }, { title := some "B" }]).1 =
      [{ title := "A", status := .created, details := none }] ∧
    ∀ e ∈ (runItems { targetCollectionId := some "col" } (fun j => decide (1 ≤ j))
        (fun _ => none) (fun _ => false) 0 { }
        [{ title := some "A" }, { title := some "B" }]).1,
      e.status ≠ Status.warning := by
  decide

/-- C3 amended: when the cancellation signal is set at loop index `i` and
clear before it, the emitted stream equals the stream of the uncancelled
loop over the first `i` records — the events of the records processed
before cancellation, nothing for unseen records — and the loop emits no
warning-tagged abort event into the stream (the warning entry shown to the
user on cancellation is added client-side, outside the stream). -/
theorem sync_cancel_amended (cfg : CraftCfg) (cf : Nat → Option String) (rf : Nat → Bool)
    (sig : Nat → Bool) (i : Nat) (items : List ZItemData) (w : World)
    (hlt : ∀ j, j < i → sig j = false) (hset : sig i = true) :
    (runItems cfg sig cf rf 0 w items).1 =
      (runItems cfg (fun _ => false) cf rf 0 w (items.take i)).1 ∧
    ∀ e ∈ (runItems cfg sig cf rf 0 w items).1, e.status ≠ Status.warning := by
  constructor
  · have h := runItems_cancel_take cfg cf rf sig i hlt hset items 0 w (Nat.zero_le i)
    rw [h, Nat.sub_zero]
  · exact runItems_no_warning cfg sig cf rf items 0 w

/-- C3 amended witness: the two-record batch cancelled after record 1,
whose stream equals the uncancelled run of the first record only. -/
theorem sync_cancel_amended_witness :
    (runItems { targetCollectionId := some "col" } (fun j => decide (1 ≤ j)) (fun _ => none)
        (fun _ => false) 0 { } [{ title := some "A" }, { title := some "B" }]).1 =
      (runItems { targetCollectionId := some "col" } (fun _ => false) (fun _ => none)
        (fun _ => false) 0 { }
        ([{ title := some "A" }, { title := some "B" }].take 1)).1 ∧
    ∀ e ∈ (runItems { targetCollectionId := some "col" } (fun j => decide (1 ≤ j))
        (fun _ => none) (fun _ => false) 0 { }
        [{ title := some "A" }, { title := some "B" }]).1,
      e.status ≠ Status.warning :=
  sync_cancel_amended { targetCollectionId := some "col" } (fun _ => none) (fun _ => false)
    (fun j => decide (1 ≤ j)) 1 [{ title := some "A" }, { title := some "B" }] { }
    (fun j hj => by
      have hj0 : j = 0 := by omega
      subst hj0
      rfl)
    rfl
